import Mathlib

/-!
Shallow embedding of the two scripts of this repository:
`src/celebrity_analysis.py` (Wikipedia pipeline) and
`src/instagram_follower_analysis.py` (batch pipeline).

Text is modelled as lists of characters over the ASCII fragment plus
uncased symbols (emoji, digits, punctuation).  On that fragment the
Python NFKD plus ASCII-encode-ignore transliteration used by
`normalize_name` is the identity on the alphabetic characters that the
preceding filter keeps, the Python `str.isalpha` predicate agrees with
`Char.isAlpha`, `str.isupper` agrees with `pyIsUpper` below, and the
regex word class used by the boundary `\b` agrees with `isWordChar`.
Network effects are modelled by explicit oracles (`WikiEnv` for the two
Wikipedia GET requests, `ApiOutcome` for the single batched model POST)
together with explicit request counters, so blocking-call counts become
facts about the embedding.
-/

/-- Character class of the Python regex word character, used by the
word boundary assertion. -/
def isWordChar (c : Char) : Bool := c.isAlphanum || c = '_'

/-- Whitespace in the sense of Python `str.isspace`, `str.split` and
`str.strip`, restricted to the ASCII whitespace characters. -/
def pyIsSpace (c : Char) : Bool :=
  c = ' ' || c = '\t' || c = '\n' || c = '\x0d' || c = '\x0b' || c = '\x0c'

/-- Lowercasing a character list, the model of Python `str.lower` on
the ASCII fragment. -/
def toLowerL (s : List Char) : List Char := s.map Char.toLower

/-- If `t` is a prefix of `s`, return the remainder of `s`; the
building block for literal regex fragments and substring tests. -/
def matchesAt : List Char → List Char → Option (List Char)
  | [], rest => some rest
  | _ :: _, [] => none
  | t :: ts, c :: cs => if t = c then matchesAt ts cs else none

/-- Scan of `re.search` with pattern `\b term \b` for a term that
starts and ends with a word character: at each position whose previous
character is not a word character, try to match the term literally and
require the following character (if any) to not be a word character. -/
def hasWholeWordAux (term : List Char) (prevIsWord : Bool) : List Char → Bool
  | [] => false
  | c :: cs =>
    (if prevIsWord then false
     else
       match matchesAt term (c :: cs) with
       | some [] => true
       | some (r :: _) => !isWordChar r
       | none => false)
    || hasWholeWordAux term (isWordChar c) cs

/-- Whether `term` occurs as a whole word (regex `\b term \b`) in `s`. -/
def hasWholeWord (term : List Char) (s : List Char) : Bool :=
  hasWholeWordAux term false s

/-- Python substring containment `term in s`. -/
def containsSub (t : List Char) : List Char → Bool
  | [] => (matchesAt t []).isSome
  | c :: cs => (matchesAt t (c :: cs)).isSome || containsSub t cs

/-- Maximal runs of word characters of a text.  A whole-word regex
match of a single word equals a token of this list being that word,
which is how the pronoun counting of `_get_sex` is modelled. -/
def wordTokensAux : List Char → List Char → List (List Char)
  | acc, [] => if acc.isEmpty then [] else [acc.reverse]
  | acc, c :: cs =>
    if isWordChar c then wordTokensAux (c :: acc) cs
    else if acc.isEmpty then wordTokensAux [] cs
    else acc.reverse :: wordTokensAux [] cs

/-- Word tokens of a character list. -/
def wordTokens (s : List Char) : List (List Char) := wordTokensAux [] s

/-- Number of whole-word matches of `he`, `his`, `him` in the
lowercased content; model of the first `re.findall` of `_get_sex`. -/
def heCount (content : String) : Nat :=
  ((wordTokens (toLowerL content.toList)).filter
    (fun t => t == "he".toList || t == "his".toList || t == "him".toList)).length

/-- Number of whole-word matches of `she`, `her`, `hers` in the
lowercased content; model of the second `re.findall` of `_get_sex`. -/
def sheCount (content : String) : Nat :=
  ((wordTokens (toLowerL content.toList)).filter
    (fun t => t == "she".toList || t == "her".toList || t == "hers".toList)).length

/-- Decision step of `_get_sex` from page content. -/
def genderFromText (content : String) : String :=
  if sheCount content < heCount content then "Male"
  else if heCount content < sheCount content then "Female"
  else "Unknown"

/-- The ordered category-to-trigger-terms table of `_get_race`,
verbatim from the source, in declaration order. -/
def keywords : List (String × List String) :=
  [("African American/Black",
    ["african american", "african-american", "black american", "black",
     "african descent", "nigerian", "kenyan", "jamaican", "haitian"]),
   ("White/Caucasian",
    ["caucasian", "white american", "european american", "white",
     "irish", "italian", "german", "english", "scottish", "french"]),
   ("Hispanic/Latino",
    ["hispanic", "latino", "latina", "latinx", "mexican", "puerto rican",
     "cuban", "dominican", "spanish", "colombian", "venezuelan"]),
   ("Asian",
    ["asian", "chinese", "japanese", "korean", "vietnamese", "filipino",
     "indian", "pakistani", "bangladeshi", "thai", "cambodian"]),
   ("Mixed Race",
    ["mixed race", "biracial", "multiracial", "mixed heritage"]),
   ("Native American",
    ["native american", "indigenous", "american indian", "cherokee",
     "navajo", "sioux", "apache"])]

/-- Direct scan of `_get_race`: first category, in declaration order,
one of whose terms matches as a whole word in the lowercased text. -/
def scanCategories : List (String × List String) → List Char → Option String
  | [], _ => none
  | (race, terms) :: rest, lc =>
    if terms.any (fun t => hasWholeWord t.toList lc) then some race
    else scanCategories rest lc

/-- Fallback scan of `_get_race` over the birth-context span: Python
substring containment `term in context`, not whole-word matching. -/
def subScanCategories : List (String × List String) → List Char → Option String
  | [], _ => none
  | (race, terms) :: rest, ctx =>
    if terms.any (fun t => containsSub t.toList ctx) then some race
    else subScanCategories rest ctx

/-- Length of the initial run of characters matched by the regex dot,
which excludes the newline character. -/
def nonNlRun : List Char → Nat
  | [] => 0
  | c :: cs => if c = '\n' then 0 else nonNlRun cs + 1

/-- Length of the alternation `(family|parents|mother|father)` when one
of its branches, tried in order, is a prefix of `s`. -/
def altWordLen (s : List Char) : Option Nat :=
  if (matchesAt "family".toList s).isSome then some 6
  else if (matchesAt "parents".toList s).isSome then some 7
  else if (matchesAt "mother".toList s).isSome then some 6
  else if (matchesAt "father".toList s).isSome then some 6
  else none

/-- Greedy backtracking of the quantifier in the source regex
`born to .{5,100}(family|parents|mother|father)`: try dot-run lengths
from the largest available down to 5. -/
def greedyLoop (rest : List Char) : Nat → Option Nat
  | 0 => none
  | n + 1 =>
    if n + 1 < 5 then none
    else
      match altWordLen (rest.drop (n + 1)) with
      | some w => some (n + 1 + w)
      | none => greedyLoop rest n

/-- Attempted match of the birth-context regex anchored at the start of
`s`; returns the length of the whole match (regex group zero). -/
def matchBornAt (s : List Char) : Option Nat :=
  match matchesAt "born to ".toList s with
  | none => none
  | some rest =>
    match greedyLoop rest (min 100 (nonNlRun rest)) with
    | none => none
    | some len2 => some (8 + len2)

/-- Leftmost search of the birth-context regex, as `re.search` does;
returns the matched span. -/
def searchBorn : List Char → Option (List Char)
  | [] => none
  | c :: cs =>
    match matchBornAt (c :: cs) with
    | some len => some ((c :: cs).take len)
    | none => searchBorn cs

/-- The ethnicity heuristic `_get_race` applied to page content:
ordered whole-word direct scan, then the birth-context fallback with
substring matching, else the not-available sentinel. -/
def getRaceFromText (content : String) : String :=
  let lc := toLowerL content.toList
  match scanCategories keywords lc with
  | some race => race
  | none =>
    match searchBorn lc with
    | some g0 =>
      match subScanCategories keywords (toLowerL g0) with
      | some race => race
      | none => "Information not available"
    | none => "Information not available"

/-- Lazy counterpart of `greedyLoop`, used only by the comparison
definition written from the words of the spec: try dot-run lengths from
0 upwards. -/
def lazyLoopAux (rest : List Char) : Nat → Nat → Option Nat
  | n, 0 =>
    (match altWordLen (rest.drop n) with
     | some w => some (n + w)
     | none => none)
  | n, f + 1 =>
    (match altWordLen (rest.drop n) with
     | some w => some (n + w)
     | none => lazyLoopAux rest (n + 1) f)

/-- Birth-context match at the start of `s` under the lazy reading of
the spec (a lazy match of up to 100 characters). -/
def matchBornSpecAt (s : List Char) : Option Nat :=
  match matchesAt "born to ".toList s with
  | none => none
  | some rest =>
    match lazyLoopAux rest 0 (min 100 rest.length) with
    | none => none
    | some len2 => some (8 + len2)

/-- Leftmost lazy birth-context search for the comparison definition. -/
def searchBornSpec : List Char → Option (List Char)
  | [] => none
  | c :: cs =>
    match matchBornSpecAt (c :: cs) with
    | some len => some ((c :: cs).take len)
    | none => searchBornSpec cs

/-- Second definition following the words of the spec for the
ethnicity fallback, to be compared with `getRaceFromText`: a lazy span
search and the same ordered whole-word category scan restricted to the
span. -/
def raceBySpecFallback (content : String) : String :=
  let lc := toLowerL content.toList
  match scanCategories keywords lc with
  | some race => race
  | none =>
    match searchBornSpec lc with
    | some g0 =>
      match scanCategories keywords g0 with
      | some race => race
      | none => "Information not available"
    | none => "Information not available"

/-- Oracle for the two Wikipedia GET requests of `_get_page_content`:
whether the search request raises, the title of its first hit if any,
whether the parse request raises, and the page text it returns. -/
structure WikiEnv where
  searchExc : Bool
  searchHit : Option String
  parseExc : Bool
  parseText : Option String
deriving Repr, DecidableEq

/-- Model of `_get_page_content`: the returned string together with the
number of blocking HTTP requests issued.  The search request is always
issued; the parse request is issued exactly when the search succeeded
and produced a hit.  Exceptions are caught and degraded to a
placeholder string, never propagated. -/
def getPageContent (env : WikiEnv) (name : String) : String × Nat :=
  if env.searchExc then ("Error fetching information for " ++ name, 1)
  else
    match env.searchHit with
    | none => ("No Wikipedia information found for " ++ name, 1)
    | some _ =>
      if env.parseExc then ("Error fetching information for " ++ name, 2)
      else
        match env.parseText with
        | some txt => (txt, 2)
        | none => ("No Wikipedia information found for " ++ name, 2)

/-- Model of `_get_sex`: fetches the page content (issuing its
requests) and applies the pronoun heuristic. -/
def getSexWithCalls (env : WikiEnv) (name : String) : String × Nat :=
  let pc := getPageContent env name
  (genderFromText pc.1, pc.2)

/-- Model of `_get_race`: fetches the page content again (issuing its
requests a second time) and applies the ethnicity heuristic. -/
def getRaceWithCalls (env : WikiEnv) (name : String) : String × Nat :=
  let pc := getPageContent env name
  (getRaceFromText pc.1, pc.2)

/-- Model of `get_celebrity_info`: name, sex guess and race guess,
together with the total number of blocking HTTP requests issued on
behalf of this one Subject. -/
def getCelebrityInfo (env : WikiEnv) (name : String) :
    (String × String × String) × Nat :=
  let sx := getSexWithCalls env name
  let rc := getRaceWithCalls env name
  ((name, sx.1, rc.1), sx.2 + rc.2)

/-- A profile record of the batch pipeline.  The optional fields model
dictionary keys that are absent until the classifier writes them; the
console display reads them through a default, exactly as the Python
`dict.get` calls with defaults do. -/
structure Follower where
  username : String
  full_name : String
  profile_pic_url : String := ""
  predicted_gender : Option String := none
  predicted_race : Option String := none
  confidence : Option String := none
  analysis_source : Option String := none
deriving Repr, DecidableEq

/-- One entry of the parsed model response array.  Each field models a
`dict.get` lookup: absent keys are `none`. -/
structure RespItem where
  id : Option Int := none
  gender : Option String := none
  ethnicity : Option String := none
  confidence : Option String := none
deriving Repr, DecidableEq

/-- Oracle for the single batched model POST of
`analyze_with_perplexity_bulk`: either a 200 response whose message
content parses to an array of entries, a 200 response whose content
fails JSON parsing, a non-200 status, or a transport exception. -/
inductive ApiOutcome where
  | ok (items : List RespItem)
  | parseError
  | httpError (status : Nat)
  | exception
deriving Repr, DecidableEq

/-- Whether the outcome is one of the three whole-call failure modes. -/
def ApiOutcome.isFailure : ApiOutcome → Bool
  | .ok _ => false
  | .parseError => true
  | .httpError _ => true
  | .exception => true

/-- The dictionary comprehension keyed by id: a later entry with the
same id overwrites an earlier one. -/
def lookupById (items : List RespItem) (i : Nat) : Option RespItem :=
  items.foldl (fun acc it => if it.id = some (Int.ofNat i) then some it else acc) none

/-- Annotation of the record at position `i` in the success path of the
classifier: copy the looked-up entry fields (with the `dict.get`
defaults of the source) and source `perplexity`, or the
unknown/none/error sentinels when id `i` is absent. -/
def applyOne (items : List RespItem) (i : Nat) (p : Follower) : Follower :=
  match lookupById items i with
  | some r =>
    { p with
        predicted_gender := some (r.gender.getD "unknown"),
        predicted_race := some (r.ethnicity.getD "unknown"),
        confidence := some (r.confidence.getD "low"),
        analysis_source := some "perplexity" }
  | none =>
    { p with
        predicted_gender := some "unknown",
        predicted_race := some "unknown",
        confidence := some "none",
        analysis_source := some "error" }

/-- The `for i, person in enumerate(followers)` loop of the success
path, with `k` the position of the first record of `fs`. -/
def applyResultsAux (items : List RespItem) : Nat → List Follower → List Follower
  | _, [] => []
  | k, p :: ps => applyOne items k p :: applyResultsAux items (k + 1) ps

/-- Whole-call failure annotation of the source: it writes the gender,
race and source keys only; the confidence key is not touched. -/
def markError (p : Follower) : Follower :=
  { p with
      predicted_gender := some "unknown",
      predicted_race := some "unknown",
      analysis_source := some "error" }

/-- Model of `analyze_with_perplexity_bulk`: on a parsed 200 response,
merge by id over the enumerated records; on any of the three failure
modes, annotate every record with `markError`.  The function is total:
no exception escapes the classifier, and there is no retry. -/
def analyze_with_perplexity_bulk (o : ApiOutcome) (followers : List Follower) :
    List Follower :=
  match o with
  | .ok items => applyResultsAux items 0 followers
  | .parseError => followers.map markError
  | .httpError _ => followers.map markError
  | .exception => followers.map markError

/-- The classifier together with the number of model requests it
issues: the source executes exactly one `requests.post`, inside the
single try block, in every invocation and outcome. -/
def analyzeWithRequestCount (o : ApiOutcome) (fs : List Follower) :
    List Follower × Nat :=
  (analyze_with_perplexity_bulk o fs, 1)

/-- Model of `normalize_name`: keep alphabetic and whitespace
characters, transliterate (the identity on the ASCII output of the
filter), and strip surrounding whitespace. -/
def normalize_name (s : List Char) : List Char :=
  let kept := s.filter (fun c => c.isAlpha || pyIsSpace c)
  ((kept.dropWhile pyIsSpace).reverse.dropWhile pyIsSpace).reverse

/-- Python `str.isupper` on the modelled fragment: at least one cased
character, and every cased character uppercase. -/
def pyIsUpper (s : List Char) : Bool :=
  s.any (fun c => c.isAlpha) && s.all (fun c => !c.isAlpha || c.isUpper)

/-- Python `str.split` with no separator: maximal runs of
non-whitespace characters, with no empty tokens. -/
def splitWsAux : List Char → List Char → List (List Char)
  | acc, [] => if acc.isEmpty then [] else [acc.reverse]
  | acc, c :: cs =>
    if pyIsSpace c then
      if acc.isEmpty then splitWsAux [] cs
      else acc.reverse :: splitWsAux [] cs
    else splitWsAux (c :: acc) cs

/-- Whitespace split of a character list. -/
def splitWs (s : List Char) : List (List Char) := splitWsAux [] s

/-- The block-list of `is_human_name`, verbatim from the source,
duplicates included. -/
def non_human_keywords : List String :=
  ["ucla", "store", "club", "official", "university", "association", "group",
   "organization", "school", "community", "foundation", "society", "team",
   "committee", "company", "inc", "corp", "llc", "association", "the",
   "enabler", "athletics", "admission", "engineering", "barstool", "school",
   "den", "backpacking", "sjp", "shop", "tuned", "metronome", "samueli",
   "undergraduate", "what\x27s bruin", "berkeley", "official"]

/-- Whether a whitespace-delimited token of the lowercased normalized
name equals a block-list entry; the first rejection test of
`is_human_name`. -/
def hasBlockedTokenB (name : String) : Bool :=
  non_human_keywords.any
    (fun kw => (splitWs (toLowerL (normalize_name name.toList))).contains kw.toList)

/-- Whether the original name is entirely uppercase and longer than 3
characters; the second rejection test of `is_human_name`. -/
def isAllCapsLongB (name : String) : Bool :=
  pyIsUpper name.toList && decide (3 < name.toList.length)

/-- Model of `is_human_name`: reject on a block-listed token, then
reject on an all-uppercase long name, else accept. -/
def is_human_name (name : String) : Bool :=
  if hasBlockedTokenB name then false
  else if isAllCapsLongB name then false
  else true

/-- One edge node of the export structure, as read by
`extract_follower_names`. -/
structure RawNode where
  username : String
  full_name : String
  profile_pic_url : String
deriving Repr, DecidableEq

/-- Model of `extract_follower_names`: one fresh record per edge, in
order, with no prediction keys present. -/
def extract_follower_names (edges : List RawNode) : List Follower :=
  edges.map (fun n =>
    { username := n.username, full_name := n.full_name,
      profile_pic_url := n.profile_pic_url })

/-- Credential precedence of `main`: argument, then environment
variable, then config file value, first non-empty string wins. -/
def resolveApiKey (argKey envKey cfgKey : String) : String :=
  if argKey ≠ "" then argKey
  else if envKey ≠ "" then envKey
  else cfgKey

/-- Observable outcome of the classification stage of `main`: whether
the missing-credential warning was printed (which the source does
before the classification stage), whether the classifier was invoked,
and the final record list. -/
structure RunResult where
  warned : Bool
  classifierCalled : Bool
  followers : List Follower
deriving Repr, DecidableEq

/-- Model of the pipeline of `main` after loading: extract records,
optionally filter to human names, then classify only when a credential
resolved; with no credential the warning is emitted and the records
pass through untouched. -/
def mainPipeline (argKey envKey cfgKey : String) (humanOnly : Bool)
    (o : ApiOutcome) (edges : List RawNode) : RunResult :=
  let apiKey := resolveApiKey argKey envKey cfgKey
  let followers0 := extract_follower_names edges
  let followers1 :=
    if humanOnly then followers0.filter (fun f => is_human_name f.full_name)
    else followers0
  if apiKey = "" then
    { warned := true, classifierCalled := false, followers := followers1 }
  else
    { warned := false, classifierCalled := true,
      followers := analyze_with_perplexity_bulk o followers1 }

/-- The gender column of a console result line, read through the
`dict.get` default of the display loop. -/
def displayedGender (p : Follower) : String := p.predicted_gender.getD "unknown"

/-- The ethnicity column of a console result line, read through the
`dict.get` default of the display loop. -/
def displayedRace (p : Follower) : String := p.predicted_race.getD "unknown"

/-- Fixture: three fresh records for the merge example. -/
def wFollowers : List Follower :=
  [{ username := "u0", full_name := "A Zero" },
   { username := "u1", full_name := "B One" },
   { username := "u2", full_name := "C Two" }]

/-- Fixture: a parsed response covering ids 0 and 2 only. -/
def wItems : List RespItem :=
  [{ id := some 0, gender := some "female", ethnicity := some "white",
     confidence := some "high" },
   { id := some 2, gender := some "male", ethnicity := some "hispanic",
     confidence := some "medium" }]

/-- Fixture: a single fresh record. -/
def cexFollower : Follower := { username := "u1", full_name := "n1" }

/-- Fixture: counterexample text for the fallback scan. -/
def fallbackCex : String := "born to folks of thailand family"

/-- Fixture: a Wikipedia environment in which search and parse both
succeed. -/
def okEnv : WikiEnv :=
  { searchExc := false, searchHit := some "Test Page", parseExc := false,
    parseText := some "text" }

/-- Fixture: a single export edge. -/
def wEdges : List RawNode :=
  [{ username := "u0", full_name := "Maria Lopez", profile_pic_url := "" }]

theorem applyResultsAux_length (items : List RespItem) (k : Nat)
    (fs : List Follower) : (applyResultsAux items k fs).length = fs.length := by
  induction fs generalizing k with
  | nil => rfl
  | cons p ps ih => simp [applyResultsAux, ih]

theorem applyResultsAux_get (items : List RespItem) (fs : List Follower)
    (k i : Nat) (h : i < fs.length)
    (h2 : i < (applyResultsAux items k fs).length) :
    (applyResultsAux items k fs).get ⟨i, h2⟩ =
      applyOne items (k + i) (fs.get ⟨i, h⟩) := by
  induction fs generalizing k i with
  | nil => cases h
  | cons p ps ih =>
    cases i with
    | zero => rfl
    | succ j =>
      have h3 : j < ps.length := Nat.lt_of_succ_lt_succ h
      have h4 : j < (applyResultsAux items (k + 1) ps).length := by
        rw [applyResultsAux_length]; exact h3
      have := ih (k + 1) j h3 h4
      simp only [applyResultsAux, List.get] at this ⊢
      rw [this]
      congr 1
      omega

/-- C1: merge by id.  For every ordered input list and parsed response
array, the record at position `i` receives, when id `i` is present in
the id lookup, that entry s gender, ethnicity and confidence with
source `perplexity` (the source value the spec abstracts as `model`);
when id `i` is absent it receives gender `unknown`, ethnicity
`unknown`, confidence `none` and source `error`. -/
theorem bulk_merge_by_id (followers : List Follower) (items : List RespItem)
    (i : Nat) (h : i < followers.length)
    (h2 : i < (analyze_with_perplexity_bulk (ApiOutcome.ok items) followers).length) :
    (∀ r g e c, lookupById items i = some r → r.gender = some g →
        r.ethnicity = some e → r.confidence = some c →
        (analyze_with_perplexity_bulk (ApiOutcome.ok items) followers).get ⟨i, h2⟩ =
          { followers.get ⟨i, h⟩ with
              predicted_gender := some g,
              predicted_race := some e,
              confidence := some c,
              analysis_source := some "perplexity" }) ∧
    (lookupById items i = none →
        (analyze_with_perplexity_bulk (ApiOutcome.ok items) followers).get ⟨i, h2⟩ =
          { followers.get ⟨i, h⟩ with
              predicted_gender := some "unknown",
              predicted_race := some "unknown",
              confidence := some "none",
              analysis_source := some "error" }) := by
  have hget := applyResultsAux_get items followers 0 i h h2
  constructor
  · intro r g e c hl hg he hc
    show (applyResultsAux items 0 followers).get ⟨i, h2⟩ = _
    rw [hget]
    simp only [Nat.zero_add, applyOne, hl, hg, he, hc, Option.getD_some]
  · intro hl
    show (applyResultsAux items 0 followers).get ⟨i, h2⟩ = _
    rw [hget]
    simp only [Nat.zero_add, applyOne, hl]

/-- Witness for C1 at the three-record example whose response covers
ids 0 and 2 only: record 1 gets the error sentinels, record 0 gets the
model values with source `perplexity`. -/
theorem bulk_merge_by_id_witness :
    ((analyze_with_perplexity_bulk (ApiOutcome.ok wItems) wFollowers).get ⟨1, by decide⟩ =
      { wFollowers.get ⟨1, by decide⟩ with
          predicted_gender := some "unknown",
          predicted_race := some "unknown",
          confidence := some "none",
          analysis_source := some "error" }) ∧
    ((analyze_with_perplexity_bulk (ApiOutcome.ok wItems) wFollowers).get ⟨0, by decide⟩ =
      { wFollowers.get ⟨0, by decide⟩ with
          predicted_gender := some "female",
          predicted_race := some "white",
          confidence := some "high",
          analysis_source := some "perplexity" }) := by
  constructor
  · exact (bulk_merge_by_id wFollowers wItems 1 (by decide) (by decide)).2 (by decide)
  · exact (bulk_merge_by_id wFollowers wItems 0 (by decide) (by decide)).1
      { id := some 0, gender := some "female", ethnicity := some "white",
        confidence := some "high" }
      "female" "white" "high" (by decide) rfl rfl rfl

/-- C2 counterexample: in a whole-call failure mode the source does not
write the confidence key at all, so the record does not carry the
confidence sentinel `none` claimed by the spec; the key stays absent. -/
theorem bulk_failure_confidence_counterexample :
    (analyze_with_perplexity_bulk ApiOutcome.parseError [cexFollower]).map
        (fun p => p.confidence) = [none] ∧
    (analyze_with_perplexity_bulk ApiOutcome.parseError [cexFollower]).map
        (fun p => p.confidence) ≠ [some "none"] := by
  constructor
  · rfl
  · decide

/-- C2 amended: in every whole-call failure mode (transport exception,
non-200 status, malformed JSON body) the call is not retried, the
classifier returns normally, and every record is annotated gender
`unknown`, ethnicity `unknown`, source `error`; the confidence field is
left exactly as it was, not set to the `none` sentinel. -/
theorem bulk_failure_marks_error (o : ApiOutcome) (fs : List Follower)
    (h : o.isFailure = true) :
    analyze_with_perplexity_bulk o fs = fs.map markError ∧
    ∀ f : Follower,
      (markError f).predicted_gender = some "unknown" ∧
      (markError f).predicted_race = some "unknown" ∧
      (markError f).analysis_source = some "error" ∧
      (markError f).confidence = f.confidence := by
  constructor
  · cases o with
    | ok items => simp [ApiOutcome.isFailure] at h
    | parseError => rfl
    | httpError s => rfl
    | exception => rfl
  · intro f
    exact ⟨rfl, rfl, rfl, rfl⟩

/-- Witness for C2 amended at a non-200 status. -/
theorem bulk_failure_marks_error_witness :
    analyze_with_perplexity_bulk (ApiOutcome.httpError 500) [cexFollower] =
      [cexFollower].map markError :=
  (bulk_failure_marks_error (ApiOutcome.httpError 500) [cexFollower] rfl).1

/-- C3: the gender guess is `Male` iff the he-pronoun count strictly
exceeds the she-pronoun count, `Female` iff the reverse, and `Unknown`
exactly on a tie, including the 0-0 tie. -/
theorem gender_pronoun_counts (content : String) :
    (genderFromText content = "Male" ↔ sheCount content < heCount content) ∧
    (genderFromText content = "Female" ↔ heCount content < sheCount content) ∧
    (genderFromText content = "Unknown" ↔ heCount content = sheCount content) := by
  by_cases h1 : sheCount content < heCount content
  · have h2 : ¬ heCount content < sheCount content := by omega
    have h3 : ¬ heCount content = sheCount content := by omega
    have hg : genderFromText content = "Male" := by
      simp [genderFromText, h1]
    rw [hg]
    exact ⟨⟨fun _ => h1, fun _ => rfl⟩,
      ⟨fun hf => absurd hf (by decide), fun hc => absurd hc h2⟩,
      ⟨fun hu => absurd hu (by decide), fun hc => absurd hc h3⟩⟩
  · by_cases h2 : heCount content < sheCount content
    · have h3 : ¬ heCount content = sheCount content := by omega
      have hg : genderFromText content = "Female" := by
        simp [genderFromText, h1, h2]
      rw [hg]
      exact ⟨⟨fun hm => absurd hm (by decide), fun hc => absurd hc h1⟩,
        ⟨fun _ => h2, fun _ => rfl⟩,
        ⟨fun hu => absurd hu (by decide), fun hc => absurd hc h3⟩⟩
    · have h3 : heCount content = sheCount content := by omega
      have hg : genderFromText content = "Unknown" := by
        simp [genderFromText, h1, h2]
      rw [hg]
      exact ⟨⟨fun hm => absurd hm (by decide), fun hc => absurd hc h1⟩,
        ⟨fun hf => absurd hf (by decide), fun hc => absurd hc h2⟩,
        ⟨fun _ => h3, fun _ => rfl⟩⟩

theorem scanCategories_first (ks : List (String × List String)) (lc : List Char) :
    ∀ (j : Nat) (hj : j < ks.length),
      (ks.get ⟨j, hj⟩).2.any (fun t => hasWholeWord t.toList lc) = true →
      (∀ (k : Nat) (hk : k < j),
        (ks.get ⟨k, Nat.lt_trans hk hj⟩).2.any
          (fun t => hasWholeWord t.toList lc) = false) →
      scanCategories ks lc = some (ks.get ⟨j, hj⟩).1 := by
  induction ks with
  | nil =>
    intro j hj
    exact absurd hj (by simp)
  | cons kv rest ih =>
    intro j hj hm he
    cases kv with
    | mk race terms =>
      cases j with
      | zero =>
        have hm0 : terms.any (fun t => hasWholeWord t.toList lc) = true := hm
        simp only [scanCategories]
        rw [if_pos hm0]
        rfl
      | succ i =>
        have h0 : terms.any (fun t => hasWholeWord t.toList lc) = false := by
          have := he 0 (Nat.succ_pos i)
          exact this
        simp only [scanCategories]
        rw [if_neg (by simp only [h0]; exact Bool.false_ne_true)]
        exact ih i (Nat.lt_of_succ_lt_succ hj) hm
          (fun k hk => he (k + 1) (Nat.succ_lt_succ hk))

/-- C4: for every text, if the category at position `j` of the fixed
declaration order has a whole-word trigger match in the lowercased text
and no earlier category does, the ethnicity guess is exactly that
category label; multi-category texts therefore resolve to the earliest
declared matching category. -/
theorem ethnicity_first_match (content : String) (j : Nat)
    (hj : j < keywords.length)
    (hmatch : (keywords.get ⟨j, hj⟩).2.any
      (fun t => hasWholeWord t.toList (toLowerL content.toList)) = true)
    (hearlier : ∀ (k : Nat) (hk : k < j),
      (keywords.get ⟨k, Nat.lt_trans hk hj⟩).2.any
        (fun t => hasWholeWord t.toList (toLowerL content.toList)) = false) :
    getRaceFromText content = (keywords.get ⟨j, hj⟩).1 := by
  have hscan := scanCategories_first keywords (toLowerL content.toList) j hj hmatch hearlier
  simp only [getRaceFromText]
  rw [hscan]

/-- Witness for C4: a text holding an Asian trigger and a
White/Caucasian trigger resolves to the earlier declared category. -/
theorem ethnicity_first_match_witness :
    getRaceFromText "asian and white" = "White/Caucasian" :=
  ethnicity_first_match "asian and white" 1 (by decide) (by decide)
    (fun k hk => by
      cases k with
      | zero =>
        have hx : (keywords.get ⟨0, by decide⟩).2.any
            (fun t => hasWholeWord t.toList
              (toLowerL "asian and white".toList)) = false := by decide
        exact hx
      | succ m => exact absurd hk (by omega))

/-- C5 counterexample: on this text no category matches whole-word,
the birth-context span exists, and the fallback scan of the source
matches `thai` as a substring of `thailand`, returning `Asian`, while
the whole-word fallback described by the spec returns the
not-available sentinel. -/
theorem ethnicity_fallback_counterexample :
    getRaceFromText fallbackCex = "Asian" ∧
    raceBySpecFallback fallbackCex = "Information not available" ∧
    getRaceFromText fallbackCex ≠ raceBySpecFallback fallbackCex := by
  refine ⟨by decide, by decide, by decide⟩

/-- C5 amended: for every text with no direct whole-word category
match, the heuristic searches for a span of the greedy regex `born to`
then 5 to 100 non-newline characters then one of
family/parents/mother/father, and rescans the categories in order over
the lowercased span using substring containment rather than whole-word
matching; if that also fails, or no span exists, it returns the
not-available sentinel. -/
theorem ethnicity_fallback_substring (content : String)
    (h : scanCategories keywords (toLowerL content.toList) = none) :
    getRaceFromText content =
      (match searchBorn (toLowerL content.toList) with
       | some g0 =>
         (match subScanCategories keywords (toLowerL g0) with
          | some race => race
          | none => "Information not available")
       | none => "Information not available") := by
  simp only [getRaceFromText, h]

/-- Witness for C5 amended at the counterexample text: the direct scan
fails and the fallback produces the substring-matched category. -/
theorem ethnicity_fallback_substring_witness :
    getRaceFromText fallbackCex =
      (match searchBorn (toLowerL fallbackCex.toList) with
       | some g0 =>
         (match subScanCategories keywords (toLowerL g0) with
          | some race => race
          | none => "Information not available")
       | none => "Information not available") :=
  ethnicity_fallback_substring fallbackCex (by decide)

/-- C6: the human filter rejects exactly the names with a block-listed
whitespace token of the lowercased normalized name or an entirely
uppercase original longer than 3 characters, and accepts otherwise; in
particular the three example names behave as the spec states. -/
theorem human_filter_characterization :
    (∀ name : String,
      is_human_name name = (!hasBlockedTokenB name && !isAllCapsLongB name)) ∧
    is_human_name "UCLA Anderson" = false ∧
    is_human_name "THE OFFICE" = false ∧
    is_human_name "Maria Lopez" = true := by
  refine ⟨?_, by decide, by decide, by decide⟩
  intro name
  unfold is_human_name
  cases hb : hasBlockedTokenB name <;> cases hc : isAllCapsLongB name <;> simp

theorem applyOne_fields (items : List RespItem) (i : Nat) (p : Follower) :
    (applyOne items i p).username = p.username ∧
    (applyOne items i p).full_name = p.full_name ∧
    (applyOne items i p).predicted_gender ≠ none ∧
    (applyOne items i p).predicted_race ≠ none ∧
    (applyOne items i p).analysis_source ≠ none := by
  unfold applyOne
  cases lookupById items i with
  | some r =>
    exact ⟨rfl, rfl, Option.some_ne_none _, Option.some_ne_none _,
      Option.some_ne_none _⟩
  | none =>
    exact ⟨rfl, rfl, Option.some_ne_none _, Option.some_ne_none _,
      Option.some_ne_none _⟩

theorem markError_fields (p : Follower) :
    (markError p).username = p.username ∧
    (markError p).full_name = p.full_name ∧
    (markError p).predicted_gender ≠ none ∧
    (markError p).predicted_race ≠ none ∧
    (markError p).analysis_source ≠ none :=
  ⟨rfl, rfl, Option.some_ne_none _, Option.some_ne_none _,
    Option.some_ne_none _⟩

theorem map_markError_get (fs : List Follower) (i : Nat) (h : i < fs.length)
    (h2 : i < (fs.map markError).length) :
    (fs.map markError).get ⟨i, h2⟩ = markError (fs.get ⟨i, h⟩) := by
  induction fs generalizing i with
  | nil => cases h
  | cons p ps ih =>
    cases i with
    | zero => rfl
    | succ j =>
      have h3 : j < ps.length := Nat.lt_of_succ_lt_succ h
      have h4 : j < (ps.map markError).length := by
        rw [List.length_map]; exact h3
      exact ih j h3 h4

/-- C7: the classifier output has the same length and order as its
input, the record at each position keeps its username and full name,
and every record carries a classification outcome (gender, ethnicity
and source keys written) in every response outcome, covered id or not,
failure or not. -/
theorem classification_no_drop (o : ApiOutcome) (fs : List Follower) :
    (analyze_with_perplexity_bulk o fs).length = fs.length ∧
    ∀ (i : Nat) (h : i < fs.length)
      (h2 : i < (analyze_with_perplexity_bulk o fs).length),
      ((analyze_with_perplexity_bulk o fs).get ⟨i, h2⟩).username =
          (fs.get ⟨i, h⟩).username ∧
      ((analyze_with_perplexity_bulk o fs).get ⟨i, h2⟩).full_name =
          (fs.get ⟨i, h⟩).full_name ∧
      ((analyze_with_perplexity_bulk o fs).get ⟨i, h2⟩).predicted_gender ≠ none ∧
      ((analyze_with_perplexity_bulk o fs).get ⟨i, h2⟩).predicted_race ≠ none ∧
      ((analyze_with_perplexity_bulk o fs).get ⟨i, h2⟩).analysis_source ≠ none := by
  cases o with
  | ok items =>
    refine ⟨applyResultsAux_length items 0 fs, ?_⟩
    intro i h h2
    simp only [analyze_with_perplexity_bulk] at h2 ⊢
    rw [applyResultsAux_get items fs 0 i h h2]
    exact applyOne_fields items (0 + i) (fs.get ⟨i, h⟩)
  | parseError =>
    refine ⟨List.length_map fs markError, ?_⟩
    intro i h h2
    simp only [analyze_with_perplexity_bulk] at h2 ⊢
    rw [map_markError_get fs i h h2]
    exact markError_fields (fs.get ⟨i, h⟩)
  | httpError s =>
    refine ⟨List.length_map fs markError, ?_⟩
    intro i h h2
    simp only [analyze_with_perplexity_bulk] at h2 ⊢
    rw [map_markError_get fs i h h2]
    exact markError_fields (fs.get ⟨i, h⟩)
  | exception =>
    refine ⟨List.length_map fs markError, ?_⟩
    intro i h h2
    simp only [analyze_with_perplexity_bulk] at h2 ⊢
    rw [map_markError_get fs i h h2]
    exact markError_fields (fs.get ⟨i, h⟩)

/-- Witness for C7 on a transport exception with one record. -/
theorem classification_no_drop_witness :
    (analyze_with_perplexity_bulk ApiOutcome.exception [cexFollower]).length = 1 ∧
    ((analyze_with_perplexity_bulk ApiOutcome.exception [cexFollower]).get
        ⟨0, by decide⟩).analysis_source ≠ none := by
  refine ⟨(classification_no_drop ApiOutcome.exception [cexFollower]).1, ?_⟩
  exact ((classification_no_drop ApiOutcome.exception [cexFollower]).2 0
    (by decide) (by decide)).2.2.2.2

/-- C8: with no credential from argument, environment or config file,
the warning flag (printed by the source before the classification
stage) is set, the classifier is never invoked, the records pass
through with no prediction keys, and every produced output line reads
gender `unknown` and ethnicity `unknown` through the display default. -/
theorem missing_key_behavior (argKey envKey cfgKey : String) (humanOnly : Bool)
    (o : ApiOutcome) (edges : List RawNode)
    (h1 : argKey = "") (h2 : envKey = "") (h3 : cfgKey = "") :
    (mainPipeline argKey envKey cfgKey humanOnly o edges).warned = true ∧
    (mainPipeline argKey envKey cfgKey humanOnly o edges).classifierCalled = false ∧
    ∀ f ∈ (mainPipeline argKey envKey cfgKey humanOnly o edges).followers,
      f.predicted_gender = none ∧ f.predicted_race = none ∧
      displayedGender f = "unknown" ∧ displayedRace f = "unknown" := by
  subst h1; subst h2; subst h3
  refine ⟨rfl, rfl, ?_⟩
  intro f hf
  have hk : resolveApiKey "" "" "" = "" := rfl
  have hmem : f ∈ extract_follower_names edges := by
    by_cases hh : humanOnly
    · have hf2 : f ∈ extract_follower_names edges ∧
          is_human_name f.full_name = true := by
        simpa [mainPipeline, hk, hh] using hf
      exact hf2.1
    · simpa [mainPipeline, hk, hh] using hf
  obtain ⟨n, _, rfl⟩ := List.mem_map.mp hmem
  exact ⟨rfl, rfl, rfl, rfl⟩

/-- Witness for C8 with one human edge and the human-only flag set. -/
theorem missing_key_behavior_witness :
    (mainPipeline "" "" "" true ApiOutcome.exception wEdges).warned = true ∧
    (mainPipeline "" "" "" true ApiOutcome.exception wEdges).classifierCalled = false :=
  ⟨(missing_key_behavior "" "" "" true ApiOutcome.exception wEdges rfl rfl rfl).1,
   (missing_key_behavior "" "" "" true ApiOutcome.exception wEdges rfl rfl rfl).2.1⟩

/-- C9 counterexample: on a successful search and parse, one Subject of
the Wikipedia pipeline issues four blocking HTTP requests, because the
sex heuristic and the race heuristic each refetch the page content with
its two requests; the claimed count of two is wrong. -/
theorem call_count_counterexample :
    (getCelebrityInfo okEnv "Test").2 = 4 ∧
    (getCelebrityInfo okEnv "Test").2 ≠ 2 := by
  exact ⟨rfl, by decide⟩

/-- C9 amended: the batch pipeline issues exactly one blocking model
request per run for the whole input set; each Subject of the Wikipedia
pipeline is processed via two separate page-content retrievals (one
for the gender guess, one for the ethnicity guess), each issuing up to
two blocking calls, so the per-Subject total is twice the per-retrieval
count and at most four. -/
theorem call_count_amended :
    (∀ (o : ApiOutcome) (fs : List Follower),
      (analyzeWithRequestCount o fs).2 = 1) ∧
    (∀ (env : WikiEnv) (name : String),
      (getCelebrityInfo env name).2 =
        (getPageContent env name).2 + (getPageContent env name).2 ∧
      (getPageContent env name).2 ≤ 2) := by
  refine ⟨fun o fs => rfl, fun env name => ⟨rfl, ?_⟩⟩
  rcases env with ⟨se, sh, pe, pt⟩
  cases se
  · cases sh with
    | none => exact Nat.le_succ 1
    | some t =>
      cases pe
      · cases pt with
        | none => exact Nat.le_refl 2
        | some txt => exact Nat.le_refl 2
      · exact Nat.le_refl 2
  · exact Nat.le_succ 1

/-- C10: the human filter accepts the empty string, and accepts every
name whose normalization yields no token at all (only emoji, digits,
punctuation or whitespace), provided the original string is not an
entirely uppercase cased string longer than 3 characters. -/
theorem human_filter_empty_accepts :
    is_human_name "" = true ∧
    ∀ name : String,
      splitWs (toLowerL (normalize_name name.toList)) = [] →
      ¬(pyIsUpper name.toList = true ∧ 3 < name.toList.length) →
      is_human_name name = true := by
  refine ⟨by decide, ?_⟩
  intro name h1 h2
  have hb : hasBlockedTokenB name = false := by
    unfold hasBlockedTokenB
    rw [h1]
    decide
  have hc : isAllCapsLongB name = false := by
    unfold isAllCapsLongB
    cases hp : pyIsUpper name.toList with
    | false => rfl
    | true =>
      have hlen : ¬ 3 < name.toList.length := fun hl => h2 ⟨hp, hl⟩
      have hlen2 : name.length ≤ 3 := by
        have he : name.toList.length = name.length := rfl
        rw [he] at hlen
        omega
      simp [decide_eq_false hlen, hlen2]
  simp [is_human_name, hb, hc]

/-- Witness for C10 at a name made of digits and an emoji: the
normalization is empty and the original is not an uppercase cased
string, so the filter accepts. -/
theorem human_filter_empty_accepts_witness : is_human_name "123😀" = true :=
  human_filter_empty_accepts.2 "123😀" (by decide) (by decide)
